import Mathlib

/-!
Real-Time Stock Indicator engine: formal model

A shallow embedding of the C indicator engine (`src/c_engine/indicators.c`,
`src/c_engine/indicators.h`) together with proofs of the claims of the specification about it.

Modelling conventions:
* C `double` arithmetic is modelled by exact arithmetic: `ℚ` where the
  computation is rational, `ℝ` where a square root occurs (Bollinger Bands).
* A C array plus its `length` parameter is modelled by a `List`; the `length`
  argument of each C function is the length of the list.  Null-pointer checks have
  no counterpart (a list is always a valid value).
* An `int` parameter that the code compares against `0` is modelled by `ℤ`.
* A function returning `NULL` on failure is modelled by `Option`;
  the `EXIT_SUCCESS`/`EXIT_FAILURE` status of `compute_std_devs` together with its
  out-parameter is also modelled by `Option`.
* Allocation always succeeds in the pure model; the allocation behaviour of
  `compute_RSI` (it is the one function that calls `exit` on allocation failure)
  is additionally modelled by `compute_RSI_alloc`, which takes explicit
  allocation outcomes.
-/

namespace Indicators

/-- Sum of `window` consecutive entries starting at index `i`
(the inner loop of `compute_SMA`, indicators.c lines 75-79). -/
def windowSum {α : Type} [LinearOrderedField α] (prices : List α) (i w : ℕ) : α :=
  ((List.range w).map (fun j => prices.getD (i + j) 0)).sum

/-- Model of `compute_SMA` (indicators.c lines 52-83): guard
`!prices || !length || window <= 0` then `window >= length`, then each output
element is the window sum divided by `window`. -/
def compute_SMA {α : Type} [LinearOrderedField α] (prices : List α) (window : ℤ) :
    Option (List α) :=
  if prices.length = 0 ∨ window ≤ 0 then none
  else if (prices.length : ℤ) ≤ window then none
  else
    some ((List.range (prices.length - window.toNat + 1)).map
      (fun i => windowSum prices i window.toNat / (window.toNat : α)))

/-- Modelled from the spec: `get_SMA` is called by `compute_EMA`
(indicators.c line 125) but its definition is not among the provided sources;
per spec §4.2 the EMA seed reuses the first output element of
WindowAggregator (the SMA), so `get_SMA` computes the same series as `compute_SMA`. -/
def get_SMA {α : Type} [LinearOrderedField α] (prices : List α) (window : ℤ) :
    Option (List α) :=
  compute_SMA prices window

/-- The EMA recurrence of indicators.c lines 143-148: value number `i` of the
output, given the window `w`, the smoothing factor `alpha` and the seed. -/
def EMA_val {α : Type} [LinearOrderedField α] (prices : List α) (w : ℕ)
    (alpha seed : α) : ℕ → α
  | 0 => seed
  | i + 1 =>
    (prices.getD (i + w) 0 - EMA_val prices w alpha seed i) * alpha +
      EMA_val prices w alpha seed i

/-- Model of `compute_EMA` (indicators.c lines 110-151): guard
`!prices || !length || !window` then `window >= length`; seeds from
the first element of `get_SMA` (propagating its failure) and applies the
recurrence `EMA[i] = (prices[i+window-1] - EMA[i-1]) * alpha + EMA[i-1]`
with `alpha = 2 / (window + 1)`. -/
def compute_EMA {α : Type} [LinearOrderedField α] (prices : List α) (window : ℤ) :
    Option (List α) :=
  if prices.length = 0 ∨ window = 0 then none
  else if (prices.length : ℤ) ≤ window then none
  else
    match get_SMA prices window with
    | none => none
    | some sma =>
      some ((List.range (prices.length - window.toNat + 1)).map
        (EMA_val prices window.toNat (2 / ((window : α) + 1)) (sma.getD 0 0)))

/-- The successive price differences (indicators.c lines 200-203):
`changes[i] = prices[i+1] - prices[i]`. -/
def changes (prices : List ℚ) : List ℚ :=
  (List.range (prices.length - 1)).map
    (fun i => prices.getD (i + 1) 0 - prices.getD i 0)

/-- Gain magnitude of a price change (indicators.c lines 210-226, 251). -/
def gainOf (c : ℚ) : ℚ := if c > 0 then c else 0

/-- Loss magnitude of a price change (indicators.c lines 210-226, 252). -/
def lossOf (c : ℚ) : ℚ := if c < 0 then -c else 0

/-- Sum of the gain magnitudes of the first `w` changes
(indicators.c lines 206-227). -/
def gain_sum (cs : List ℚ) (w : ℕ) : ℚ :=
  ((List.range w).map (fun i => gainOf (cs.getD i 0))).sum

/-- Sum of the loss magnitudes of the first `w` changes
(indicators.c lines 206-227). -/
def loss_sum (cs : List ℚ) (w : ℕ) : ℚ :=
  ((List.range w).map (fun i => lossOf (cs.getD i 0))).sum

/-- Wilder-smoothed `(avg_gain, avg_loss)` state used for output element `j`
of `compute_RSI`: `j = 0` is the plain average over the first `w` changes
(indicators.c lines 230-231), and each step applies the Wilder update with the
next change (indicators.c lines 249-256). -/
def wilder_avgs (cs : List ℚ) (w : ℕ) : ℕ → ℚ × ℚ
  | 0 => (gain_sum cs w / w, loss_sum cs w / w)
  | j + 1 =>
    (((wilder_avgs cs w j).1 * ((w : ℚ) - 1) + gainOf (cs.getD (w + j) 0)) / w,
      ((wilder_avgs cs w j).2 * ((w : ℚ) - 1) + lossOf (cs.getD (w + j) 0)) / w)

/-- The RSI formula with the zero-average-loss sentinel
(indicators.c lines 236-244 and 258-266). -/
def rsi_of (ag al : ℚ) : ℚ :=
  if al = 0 then 100 else 100 - 100 / (1 + ag / al)

/-- The list of RSI values produced by the loops of `compute_RSI`
(indicators.c lines 233-267): element `j` applies `rsi_of` to the
Wilder state after `j` smoothing updates. -/
def RSI_list (prices : List ℚ) (w : ℕ) : List ℚ :=
  (List.range (prices.length - w)).map
    (fun j => rsi_of (wilder_avgs (changes prices) w j).1
      (wilder_avgs (changes prices) w j).2)

/-- Model of `compute_RSI` (indicators.c lines 171-273): guard
`!prices || window >= length || window <= 0`, then the RSI list. -/
def compute_RSI (prices : List ℚ) (window : ℤ) : Option (List ℚ) :=
  if (prices.length : ℤ) ≤ window ∨ window ≤ 0 then none
  else some (RSI_list prices window.toNat)

/-- Outcome of a call in the model that tracks allocation: a normal result,
a `NULL` return reported to the caller, or process termination (`exit`). -/
inductive AllocOutcome : Type
  | ok (r : List ℚ)
  | null
  | abort
  deriving DecidableEq

/-- Model of `compute_RSI` with explicit allocation outcomes
(indicators.c lines 171-198): `rsi_ok` is the success of the `RSI_Values`
malloc (failure returns `NULL`, line 179-183); `bufs_ok` is the joint success
of the `changes`/`gains`/`losses` mallocs, whose failure calls
`exit(EXIT_FAILURE)` (lines 189-198). -/
def compute_RSI_alloc (prices : List ℚ) (window : ℤ) (rsi_ok bufs_ok : Bool) :
    AllocOutcome :=
  if (prices.length : ℤ) ≤ window ∨ window ≤ 0 then .null
  else if rsi_ok = false then .null
  else if bufs_ok = false then .abort
  else .ok (RSI_list prices window.toNat)

/-- Model of `compute_std_devs` (indicators.c lines 297-317): guard
`!prices || !means || !std_devs || length <= 0 || window <= 0 || window > length`
returns `EXIT_FAILURE`; otherwise each output element is the square root of
the mean squared deviation of the window about `means[i]`. -/
noncomputable def compute_std_devs (prices : List ℝ) (window : ℤ)
    (means : List ℝ) : Option (List ℝ) :=
  if prices.length = 0 ∨ window ≤ 0 ∨ (prices.length : ℤ) < window then none
  else
    some ((List.range (prices.length - window.toNat + 1)).map (fun i =>
      Real.sqrt (((List.range window.toNat).map (fun j =>
        (prices.getD (i + j) 0 - means.getD i 0) *
          (prices.getD (i + j) 0 - means.getD i 0))).sum / (window.toNat : ℝ))))

/-- Model of the `BollingerBands` struct (indicators.c lines 319-325). -/
structure BollingerBands : Type where
  middle_band : List ℝ
  top_band : List ℝ
  bottom_band : List ℝ
  length : ℕ

/-- Model of `compute_bollinger_bands` (indicators.c lines 358-407): guard
`!prices || window >= length || window <= 0 || std_devs <= 0`; middle band is
the output of `compute_SMA` (failure propagated, lines 388-394); the ignored
`compute_std_devs` status at line 397 is modelled as a `none` propagation,
shown unreachable under the guard; top and bottom add and subtract
`std_devs * stddev_values[i]` (lines 399-403). -/
noncomputable def compute_bollinger_bands (prices : List ℝ) (window : ℤ)
    (std_devs : ℝ) : Option BollingerBands :=
  if (prices.length : ℤ) ≤ window ∨ window ≤ 0 ∨ std_devs ≤ 0 then none
  else
    match compute_SMA prices window with
    | none => none
    | some sma =>
      match compute_std_devs prices window sma with
      | none => none
      | some sd =>
        some ⟨sma,
          (List.range (prices.length - window.toNat + 1)).map
            (fun i => sma.getD i 0 + std_devs * sd.getD i 0),
          (List.range (prices.length - window.toNat + 1)).map
            (fun i => sma.getD i 0 - std_devs * sd.getD i 0),
          prices.length - window.toNat + 1⟩

/-- Modelled from the spec: the raw MACD series of spec §4.5,
`macdRaw[i] = EMA12[i+14] - EMA26[i]` over the `n - 25` aligned positions. -/
def MACD_raw (n : ℕ) (e12 e26 : List ℚ) : List ℚ :=
  (List.range (n - 25)).map (fun i => e12.getD (i + 14) 0 - e26.getD i 0)

/-- Modelled from the spec: `compute_MACD` is declared in indicators.h
(lines 198-223) but its definition is not among the provided sources.
Following spec §4.5: fixed periods 12, 26, 9; requires
`n - 26 - 9 + 1 > 0`, else invalid; the signal line is a 9-period EMA of
`MACD_raw`; the final MACD series is `MACD_raw` truncated by 8 to align
with the signal line; sub-computation failures propagate. -/
def compute_MACD (prices : List ℚ) : Option (List ℚ × List ℚ) :=
  if (prices.length : ℤ) - 26 - 9 + 1 ≤ 0 then none
  else
    match compute_EMA prices 12, compute_EMA prices 26 with
    | some e12, some e26 =>
      match compute_EMA (MACD_raw prices.length e12 e26) 9 with
      | some signal =>
        some ((List.range (prices.length - 33)).map
          (fun i => (MACD_raw prices.length e12 e26).getD (i + 8) 0), signal)
      | none => none
    | _, _ => none

/-- Modelled from the spec: the OBV accumulation of spec §4.6 (the
`compute_OBV` implementation is not among the provided sources; indicators.h
lines 225-245 only declare it).  `OBV[0] = 0`; a price rise adds the volume,
a fall subtracts it, an unchanged price leaves the value. -/
def OBV_val (prices volumes : List ℚ) : ℕ → ℚ
  | 0 => 0
  | i + 1 =>
    if prices.getD i 0 < prices.getD (i + 1) 0 then
      OBV_val prices volumes i + volumes.getD (i + 1) 0
    else if prices.getD (i + 1) 0 < prices.getD i 0 then
      OBV_val prices volumes i - volumes.getD (i + 1) 0
    else OBV_val prices volumes i

/-- Modelled from the spec: `compute_OBV` is declared in indicators.h
(lines 225-245) but its definition is not among the provided sources.
Following spec §4.6: two equal-length series of length `n > 0`, else
invalid; output length `n` with the `OBV_val` accumulation. -/
def compute_OBV (prices volumes : List ℚ) : Option (List ℚ) :=
  if prices.length = 0 ∨ prices.length ≠ volumes.length then none
  else some ((List.range prices.length).map (OBV_val prices volumes))

/-! ## General helper lemmas -/

lemma length_range_map {α : Type} (f : ℕ → α) (k : ℕ) :
    ((List.range k).map f).length = k := by
  simp

lemma getD_range_map {α : Type} (f : ℕ → α) (k i : ℕ) (h : i < k) (d : α) :
    ((List.range k).map f).getD i d = f i := by
  rw [List.getD_eq_getElem _ _ (by simpa using h)]
  simp

lemma windowSum_eq_sum_take_drop {α : Type} [LinearOrderedField α]
    (prices : List α) (i w : ℕ) (h : i + w ≤ prices.length) :
    windowSum prices i w = ((prices.drop i).take w).sum := by
  induction w with
  | zero => simp [windowSum]
  | succ n ih =>
    have hi : i + n < prices.length := by omega
    have hd : n < (prices.drop i).length := by simp; omega
    rw [windowSum, List.range_succ, List.map_append, List.sum_append,
      List.sum_take_succ _ _ hd, List.getElem_drop]
    have hrec := ih (by omega)
    rw [windowSum] at hrec
    rw [hrec, List.map_singleton, List.sum_singleton,
      List.getD_eq_getElem _ _ hi]

/-! ## SMA helper lemmas -/

lemma compute_SMA_eq {α : Type} [LinearOrderedField α] (prices : List α)
    (window : ℤ) (h1 : 0 < window) (h2 : window < (prices.length : ℤ)) :
    compute_SMA prices window =
      some ((List.range (prices.length - window.toNat + 1)).map
        (fun i => windowSum prices i window.toNat / (window.toNat : α))) := by
  unfold compute_SMA
  rw [if_neg (by push_neg; omega), if_neg (by omega)]

lemma compute_SMA_none {α : Type} [LinearOrderedField α] (prices : List α)
    (window : ℤ) (h : window ≤ 0 ∨ (prices.length : ℤ) ≤ window) :
    compute_SMA prices window = none := by
  unfold compute_SMA
  rcases h with h | h
  · rw [if_pos (Or.inr h)]
  · by_cases h0 : prices.length = 0 ∨ window ≤ 0
    · rw [if_pos h0]
    · rw [if_neg h0, if_pos h]

/-! ## EMA helper lemmas -/

lemma compute_EMA_eq {α : Type} [LinearOrderedField α] (prices : List α)
    (window : ℤ) (h1 : 0 < window) (h2 : window < (prices.length : ℤ)) :
    ∃ s, get_SMA prices window = some s ∧
      compute_EMA prices window =
        some ((List.range (prices.length - window.toNat + 1)).map
          (EMA_val prices window.toNat (2 / ((window : α) + 1)) (s.getD 0 0))) := by
  have hs : get_SMA prices window =
      some ((List.range (prices.length - window.toNat + 1)).map
        (fun i => windowSum prices i window.toNat / (window.toNat : α))) :=
    compute_SMA_eq prices window h1 h2
  refine ⟨_, hs, ?_⟩
  unfold compute_EMA
  rw [if_neg (by push_neg; omega), if_neg (by omega), hs]

lemma compute_EMA_none {α : Type} [LinearOrderedField α] (prices : List α)
    (window : ℤ) (h : window ≤ 0 ∨ (prices.length : ℤ) ≤ window) :
    compute_EMA prices window = none := by
  unfold compute_EMA
  by_cases h0 : prices.length = 0 ∨ window = 0
  · rw [if_pos h0]
  · push_neg at h0
    rw [if_neg (by push_neg; exact h0)]
    by_cases hle : (prices.length : ℤ) ≤ window
    · rw [if_pos hle]
    · rw [if_neg hle]
      have hw : window < 0 := by omega
      have : get_SMA prices window = none :=
        compute_SMA_none prices window (Or.inl (by omega))
      rw [this]

lemma compute_EMA_length {α : Type} [LinearOrderedField α] (prices : List α)
    (window : ℤ) (h1 : 0 < window) (h2 : window < (prices.length : ℤ)) :
    ∃ e, compute_EMA prices window = some e ∧
      e.length = prices.length - window.toNat + 1 := by
  obtain ⟨s, _, he⟩ := compute_EMA_eq prices window h1 h2
  exact ⟨_, he, length_range_map _ _⟩

/-! ## Guard lemmas for RSI, standard deviation and Bollinger Bands -/

lemma compute_RSI_none (prices : List ℚ) (window : ℤ)
    (h : window ≤ 0 ∨ (prices.length : ℤ) ≤ window) :
    compute_RSI prices window = none := by
  unfold compute_RSI
  rw [if_pos (by tauto)]

lemma compute_bollinger_none (prices : List ℝ) (window : ℤ) (std_devs : ℝ)
    (h : window ≤ 0 ∨ (prices.length : ℤ) ≤ window) :
    compute_bollinger_bands prices window std_devs = none := by
  unfold compute_bollinger_bands
  rcases h with h | h
  · rw [if_pos (Or.inr (Or.inl h))]
  · rw [if_pos (Or.inl h)]

lemma compute_std_devs_none (prices : List ℝ) (window : ℤ) (means : List ℝ)
    (h : window ≤ 0 ∨ (prices.length : ℤ) < window) :
    compute_std_devs prices window means = none := by
  unfold compute_std_devs
  rcases h with h | h
  · rw [if_pos (Or.inr (Or.inl h))]
  · rw [if_pos (Or.inr (Or.inr h))]

/-! ## RSI helper lemmas -/

lemma gainOf_nonneg (c : ℚ) : 0 ≤ gainOf c := by
  unfold gainOf
  split <;> linarith

lemma lossOf_nonneg (c : ℚ) : 0 ≤ lossOf c := by
  unfold lossOf
  split <;> linarith

lemma gain_sum_nonneg (cs : List ℚ) (w : ℕ) : 0 ≤ gain_sum cs w := by
  apply List.sum_nonneg
  intro x hx
  simp only [List.mem_map, List.mem_range] at hx
  obtain ⟨i, _, rfl⟩ := hx
  exact gainOf_nonneg _

lemma loss_sum_nonneg (cs : List ℚ) (w : ℕ) : 0 ≤ loss_sum cs w := by
  apply List.sum_nonneg
  intro x hx
  simp only [List.mem_map, List.mem_range] at hx
  obtain ⟨i, _, rfl⟩ := hx
  exact lossOf_nonneg _

lemma wilder_avgs_nonneg (cs : List ℚ) (w : ℕ) (hw : 1 ≤ w) (j : ℕ) :
    0 ≤ (wilder_avgs cs w j).1 ∧ 0 ≤ (wilder_avgs cs w j).2 := by
  have hw' : (1 : ℚ) ≤ (w : ℚ) := by exact_mod_cast hw
  induction j with
  | zero =>
    exact ⟨div_nonneg (gain_sum_nonneg cs w) (by positivity),
      div_nonneg (loss_sum_nonneg cs w) (by positivity)⟩
  | succ n ih =>
    refine ⟨div_nonneg ?_ (by positivity), div_nonneg ?_ (by positivity)⟩
    · exact add_nonneg (mul_nonneg ih.1 (by linarith)) (gainOf_nonneg _)
    · exact add_nonneg (mul_nonneg ih.2 (by linarith)) (lossOf_nonneg _)

lemma rsi_of_bounds (ag al : ℚ) (hg : 0 ≤ ag) (hl : 0 ≤ al) :
    0 ≤ rsi_of ag al ∧ rsi_of ag al ≤ 100 ∧ (rsi_of ag al = 100 ↔ al = 0) := by
  unfold rsi_of
  by_cases h : al = 0
  · rw [if_pos h]
    refine ⟨by norm_num, le_refl _, by simp [h]⟩
  · rw [if_neg h]
    have hl' : 0 < al := lt_of_le_of_ne hl (Ne.symm h)
    have hrs : 0 ≤ ag / al := div_nonneg hg hl'.le
    have h1 : 0 < 1 + ag / al := by linarith
    have hdivpos : 0 < 100 / (1 + ag / al) := by positivity
    have hdivle : 100 / (1 + ag / al) ≤ 100 := by
      rw [div_le_iff₀ h1]
      nlinarith
    refine ⟨by linarith, by linarith, ?_, fun hal => absurd hal h⟩
    intro heq
    exfalso
    linarith

lemma compute_std_devs_eq (prices : List ℝ) (window : ℤ) (means : List ℝ)
    (h1 : 0 < window) (h2 : window ≤ (prices.length : ℤ)) :
    compute_std_devs prices window means =
      some ((List.range (prices.length - window.toNat + 1)).map (fun i =>
        Real.sqrt (((List.range window.toNat).map (fun j =>
          (prices.getD (i + j) 0 - means.getD i 0) *
            (prices.getD (i + j) 0 - means.getD i 0))).sum /
          (window.toNat : ℝ)))) := by
  unfold compute_std_devs
  rw [if_neg (by push_neg; refine ⟨by omega, by omega, by omega⟩)]

/-! ## MACD helper lemmas -/

lemma compute_MACD_none (prices : List ℚ)
    (h : (prices.length : ℤ) - 26 - 9 + 1 ≤ 0) : compute_MACD prices = none := by
  unfold compute_MACD
  rw [if_pos h]

lemma compute_MACD_some (prices : List ℚ) (h : 35 ≤ prices.length) :
    ∃ m s, compute_MACD prices = some (m, s) ∧
      m.length = prices.length - 33 ∧ s.length = prices.length - 33 := by
  obtain ⟨e12, he12, hl12⟩ := compute_EMA_length prices 12 (by norm_num) (by omega)
  obtain ⟨e26, he26, hl26⟩ := compute_EMA_length prices 26 (by norm_num) (by omega)
  have hraw : (MACD_raw prices.length e12 e26).length = prices.length - 25 :=
    length_range_map _ _
  obtain ⟨sig, hsig, hlsig⟩ :=
    compute_EMA_length (MACD_raw prices.length e12 e26) 9 (by norm_num)
      (by rw [hraw]; omega)
  refine ⟨(List.range (prices.length - 33)).map
    (fun i => (MACD_raw prices.length e12 e26).getD (i + 8) 0), sig, ?_, ?_, ?_⟩
  · unfold compute_MACD
    rw [if_neg (by omega)]
    simp only [he12, he26, hsig]
  · rw [length_range_map]
  · rw [hlsig, hraw]
    omega

/-! ## Bollinger Bands helper lemmas -/

lemma compute_bollinger_eq (prices : List ℝ) (window : ℤ) (mult : ℝ)
    (h1 : 0 < window) (h2 : window < (prices.length : ℤ)) (h3 : 0 < mult) :
    ∃ sma sd, compute_SMA prices window = some sma ∧
      compute_std_devs prices window sma = some sd ∧
      compute_bollinger_bands prices window mult =
        some ⟨sma,
          (List.range (prices.length - window.toNat + 1)).map
            (fun i => sma.getD i 0 + mult * sd.getD i 0),
          (List.range (prices.length - window.toNat + 1)).map
            (fun i => sma.getD i 0 - mult * sd.getD i 0),
          prices.length - window.toNat + 1⟩ := by
  have hsma := compute_SMA_eq prices window h1 h2
  have hsd := compute_std_devs_eq prices window
    ((List.range (prices.length - window.toNat + 1)).map
      (fun i => windowSum prices i window.toNat / (window.toNat : ℝ)))
    h1 (by omega)
  refine ⟨_, _, hsma, hsd, ?_⟩
  unfold compute_bollinger_bands
  rw [if_neg (by push_neg; exact ⟨by omega, by omega, by linarith⟩)]
  simp only [hsma, hsd]

end Indicators

namespace Indicators

/-- C1: for every price series of length `n` and every window with
`1 ≤ window < n`, `compute_SMA` succeeds and returns a series of length
`n - window + 1` whose element `i` is the arithmetic mean of
`prices[i .. i+window-1]`. -/
theorem C1_sma_correct (prices : List ℚ) (window : ℤ)
    (h1 : 1 ≤ window) (h2 : window < (prices.length : ℤ)) :
    ∃ r : List ℚ, compute_SMA prices window = some r ∧
      (r.length : ℤ) = (prices.length : ℤ) - window + 1 ∧
      ∀ i < r.length, r.getD i 0 =
        ((prices.drop i).take window.toNat).sum / (window : ℚ) := by
  refine ⟨_, compute_SMA_eq prices window (by omega) h2, ?_, ?_⟩
  · rw [length_range_map]
    omega
  · intro i hi
    rw [length_range_map] at hi
    rw [getD_range_map _ _ _ hi,
      windowSum_eq_sum_take_drop prices i window.toNat (by omega)]
    have hw : ((window.toNat : ℚ)) = (window : ℚ) := by
      have h0 : ((window.toNat : ℤ)) = window := Int.toNat_of_nonneg (by omega)
      exact_mod_cast congrArg (fun z : ℤ => (z : ℚ)) h0
    rw [hw]

/-- Witness for C1 at `prices = [1, 2, 3]`, `window = 2`. -/
theorem C1_sma_correct_witness :
    (1 : ℤ) ≤ 2 ∧ (2 : ℤ) < (([(1 : ℚ), 2, 3]).length : ℤ) ∧
      ∃ r : List ℚ, compute_SMA [(1 : ℚ), 2, 3] 2 = some r ∧
        (r.length : ℤ) = (([(1 : ℚ), 2, 3]).length : ℤ) - 2 + 1 ∧
        ∀ i < r.length, r.getD i 0 =
          ((([(1 : ℚ), 2, 3]).drop i).take (2 : ℤ).toNat).sum / ((2 : ℤ) : ℚ) :=
  ⟨by norm_num, by norm_num,
    C1_sma_correct [(1 : ℚ), 2, 3] 2 (by norm_num) (by norm_num)⟩

/-- C5: for every valid `(prices, window)` input, the first element of the
EMA output equals the first element of the SMA output over the same prices
and window. -/
theorem C5_ema_seed (prices : List ℚ) (window : ℤ)
    (h1 : 1 ≤ window) (h2 : window < (prices.length : ℤ)) :
    ∃ e s, compute_EMA prices window = some e ∧
      compute_SMA prices window = some s ∧ e.getD 0 0 = s.getD 0 0 := by
  obtain ⟨s, hs, he⟩ := compute_EMA_eq prices window (by omega) h2
  refine ⟨_, s, he, hs, ?_⟩
  rw [getD_range_map _ _ _ (by omega)]
  rfl

/-- Witness for C5 at `prices = [1, 2, 4]`, `window = 2`. -/
theorem C5_ema_seed_witness :
    (1 : ℤ) ≤ 2 ∧ (2 : ℤ) < (([(1 : ℚ), 2, 4]).length : ℤ) ∧
      ∃ e s, compute_EMA [(1 : ℚ), 2, 4] 2 = some e ∧
        compute_SMA [(1 : ℚ), 2, 4] 2 = some s ∧ e.getD 0 0 = s.getD 0 0 :=
  ⟨by norm_num, by norm_num,
    C5_ema_seed [(1 : ℚ), 2, 4] 2 (by norm_num) (by norm_num)⟩

/-- C6: for every valid `(prices, window)` input, `compute_EMA` returns a
series of length `n - window + 1` satisfying, for every `i` from `1` to
`n - window`, the recurrence
`EMA[i] = alpha * (prices[i+window-1] - EMA[i-1]) + EMA[i-1]` with
`alpha = 2 / (window + 1)`. -/
theorem C6_ema_recurrence (prices : List ℚ) (window : ℤ)
    (h1 : 1 ≤ window) (h2 : window < (prices.length : ℤ)) :
    ∃ e, compute_EMA prices window = some e ∧
      (e.length : ℤ) = (prices.length : ℤ) - window + 1 ∧
      ∀ i, 1 ≤ i → i < e.length →
        e.getD i 0 = 2 / ((window : ℚ) + 1) *
            (prices.getD (i + window.toNat - 1) 0 - e.getD (i - 1) 0) +
          e.getD (i - 1) 0 := by
  obtain ⟨s, hs, he⟩ := compute_EMA_eq prices window (by omega) h2
  refine ⟨_, he, by rw [length_range_map]; omega, ?_⟩
  intro i hi1 hi2
  rw [length_range_map] at hi2
  obtain ⟨k, rfl⟩ : ∃ k, i = k + 1 := ⟨i - 1, by omega⟩
  have hk : k < prices.length - window.toNat + 1 := by omega
  rw [getD_range_map _ _ _ hi2]
  have hsub : k + 1 - 1 = k := by omega
  rw [hsub, getD_range_map _ _ _ hk]
  have hidx : k + 1 + window.toNat - 1 = k + window.toNat := by omega
  rw [hidx]
  show (prices.getD (k + window.toNat) 0 -
      EMA_val prices window.toNat (2 / ((window : ℚ) + 1)) (s.getD 0 0) k) *
        (2 / ((window : ℚ) + 1)) +
      EMA_val prices window.toNat (2 / ((window : ℚ) + 1)) (s.getD 0 0) k = _
  ring

/-- Witness for C6 at `prices = [1, 2, 4]`, `window = 2`. -/
theorem C6_ema_recurrence_witness :
    (1 : ℤ) ≤ 2 ∧ (2 : ℤ) < (([(1 : ℚ), 2, 4]).length : ℤ) ∧
      ∃ e, compute_EMA [(1 : ℚ), 2, 4] 2 = some e ∧
        (e.length : ℤ) = (([(1 : ℚ), 2, 4]).length : ℤ) - 2 + 1 ∧
        ∀ i, 1 ≤ i → i < e.length →
          e.getD i 0 = 2 / (((2 : ℤ) : ℚ) + 1) *
              (([(1 : ℚ), 2, 4]).getD (i + (2 : ℤ).toNat - 1) 0 - e.getD (i - 1) 0) +
            e.getD (i - 1) 0 :=
  ⟨by norm_num, by norm_num,
    C6_ema_recurrence [(1 : ℚ), 2, 4] 2 (by norm_num) (by norm_num)⟩

/-- C2 (counterexample): `compute_std_devs` with `window` exactly equal to
the series length succeeds (its guard is `window > length`, not
`window >= length`), refuting the claim that every window-based operation
rejects `window == length`. -/
theorem C2_std_devs_accepts_full_window :
    (compute_std_devs [(1 : ℝ), 2] 2 [(3 : ℝ) / 2]).isSome = true := by
  rw [compute_std_devs_eq _ _ _ (by norm_num) (by norm_num)]
  rfl

/-- C2 (amended): `compute_SMA`, `compute_EMA`, `compute_RSI` and
`compute_bollinger_bands` fail for `window <= 0` or `window >= length`
(including `window == length`); `compute_std_devs` fails for `window <= 0`
or `window > length`, but succeeds when `window == length > 0`. -/
theorem C2_validation (prices : List ℚ) (pricesR meansR : List ℝ)
    (window : ℤ) (mult : ℝ) (hlen : pricesR.length = prices.length)
    (h : window ≤ 0 ∨ (prices.length : ℤ) ≤ window) :
    compute_SMA prices window = none ∧
    compute_EMA prices window = none ∧
    compute_RSI prices window = none ∧
    compute_bollinger_bands pricesR window mult = none ∧
    (window ≤ 0 ∨ (prices.length : ℤ) < window →
      compute_std_devs pricesR window meansR = none) ∧
    (0 < window → (prices.length : ℤ) = window →
      (compute_std_devs pricesR window meansR).isSome = true) := by
  refine ⟨compute_SMA_none _ _ h, compute_EMA_none _ _ h,
    compute_RSI_none _ _ h, compute_bollinger_none _ _ _ (by rw [hlen]; exact h),
    ?_, ?_⟩
  · intro h2
    exact compute_std_devs_none _ _ _ (by omega)
  · intro h1 h2
    rw [compute_std_devs_eq _ _ _ h1 (by omega)]
    rfl

/-- C3 (code evidence): on the valid input `prices = [1, 2, 3]`,
`window = 1`, if the allocation of the `changes`/`gains`/`losses` buffers
fails, `compute_RSI` terminates the process (it calls `exit(EXIT_FAILURE)`,
indicators.c line 197) instead of returning a reportable error —
contradicting the claim that no indicator operation ever terminates the
process. -/
theorem C3_rsi_aborts_on_alloc_failure :
    compute_RSI_alloc [(1 : ℚ), 2, 3] 1 true false = AllocOutcome.abort := by
  unfold compute_RSI_alloc
  rw [if_neg (by norm_num), if_neg (by norm_num), if_pos rfl]

/-- C4: for every price series of length `n` and every window with
`1 ≤ window < n`, `compute_RSI` returns a series of length `n - window`,
every element of which lies in `[0, 100]`, and an element equals exactly
`100` precisely when the corresponding Wilder-smoothed average loss is `0`. -/
theorem C4_rsi_bounds (prices : List ℚ) (window : ℤ)
    (h1 : 1 ≤ window) (h2 : window < (prices.length : ℤ)) :
    ∃ r, compute_RSI prices window = some r ∧
      (r.length : ℤ) = (prices.length : ℤ) - window ∧
      ∀ j < r.length,
        (0 ≤ r.getD j 0 ∧ r.getD j 0 ≤ 100) ∧
        (r.getD j 0 = 100 ↔
          (wilder_avgs (changes prices) window.toNat j).2 = 0) := by
  refine ⟨RSI_list prices window.toNat, ?_, ?_, ?_⟩
  · unfold compute_RSI
    rw [if_neg (by push_neg; omega)]
  · unfold RSI_list
    rw [length_range_map]
    omega
  · intro j hj
    unfold RSI_list at hj ⊢
    rw [length_range_map] at hj
    rw [getD_range_map _ _ _ hj]
    obtain ⟨hg, hl⟩ :=
      wilder_avgs_nonneg (changes prices) window.toNat (by omega) j
    obtain ⟨b1, b2, b3⟩ := rsi_of_bounds _ _ hg hl
    exact ⟨⟨b1, b2⟩, b3⟩

/-- Witness for C4 at `prices = [1, 2, 3]`, `window = 1`. -/
theorem C4_rsi_bounds_witness :
    (1 : ℤ) ≤ 1 ∧ (1 : ℤ) < (([(1 : ℚ), 2, 3]).length : ℤ) ∧
      ∃ r, compute_RSI [(1 : ℚ), 2, 3] 1 = some r ∧
        (r.length : ℤ) = (([(1 : ℚ), 2, 3]).length : ℤ) - 1 ∧
        ∀ j < r.length,
          (0 ≤ r.getD j 0 ∧ r.getD j 0 ≤ 100) ∧
          (r.getD j 0 = 100 ↔
            (wilder_avgs (changes [(1 : ℚ), 2, 3]) (1 : ℤ).toNat j).2 = 0) :=
  ⟨le_refl _, by norm_num,
    C4_rsi_bounds [(1 : ℚ), 2, 3] 1 (le_refl _) (by norm_num)⟩

/-- Witness for C2 at `window = 2` with series of length `2`. -/
theorem C2_validation_witness :
    ([(1 : ℝ), 2]).length = ([(1 : ℚ), 2]).length ∧
    ((2 : ℤ) ≤ 0 ∨ (([(1 : ℚ), 2]).length : ℤ) ≤ 2) ∧
    (compute_SMA [(1 : ℚ), 2] 2 = none ∧
      compute_EMA [(1 : ℚ), 2] 2 = none ∧
      compute_RSI [(1 : ℚ), 2] 2 = none ∧
      compute_bollinger_bands [(1 : ℝ), 2] 2 1 = none ∧
      ((2 : ℤ) ≤ 0 ∨ (([(1 : ℚ), 2]).length : ℤ) < 2 →
        compute_std_devs [(1 : ℝ), 2] 2 [(0 : ℝ)] = none) ∧
      ((0 : ℤ) < 2 → (([(1 : ℚ), 2]).length : ℤ) = 2 →
        (compute_std_devs [(1 : ℝ), 2] 2 [(0 : ℝ)]).isSome = true)) :=
  ⟨rfl, by norm_num,
    C2_validation [(1 : ℚ), 2] [(1 : ℝ), 2] [(0 : ℝ)] 2 1 rfl (by norm_num)⟩

/-- C7: for every valid input with a positive standard-deviation multiplier,
`compute_bollinger_bands` succeeds and every index satisfies
`bottom[i] <= middle[i] <= top[i]`, where the band half-width is the
multiplier times the population standard deviation (squared-deviation sum
divided by `window`) of that window about `middle[i]`. -/
theorem C7_bollinger_band_order (prices : List ℝ) (window : ℤ) (mult : ℝ)
    (h1 : 1 ≤ window) (h2 : window < (prices.length : ℤ)) (h3 : 0 < mult) :
    ∃ bb, compute_bollinger_bands prices window mult = some bb ∧
      ∀ i < bb.length,
        bb.top_band.getD i 0 = bb.middle_band.getD i 0 +
          mult * Real.sqrt (((List.range window.toNat).map (fun j =>
            (prices.getD (i + j) 0 - bb.middle_band.getD i 0) *
              (prices.getD (i + j) 0 - bb.middle_band.getD i 0))).sum /
            (window.toNat : ℝ)) ∧
        bb.bottom_band.getD i 0 = bb.middle_band.getD i 0 -
          mult * Real.sqrt (((List.range window.toNat).map (fun j =>
            (prices.getD (i + j) 0 - bb.middle_band.getD i 0) *
              (prices.getD (i + j) 0 - bb.middle_band.getD i 0))).sum /
            (window.toNat : ℝ)) ∧
        bb.bottom_band.getD i 0 ≤ bb.middle_band.getD i 0 ∧
        bb.middle_band.getD i 0 ≤ bb.top_band.getD i 0 := by
  obtain ⟨sma, sd, hsma, hsd, hbb⟩ :=
    compute_bollinger_eq prices window mult (by omega) h2 h3
  have hsd2 : sd = (List.range (prices.length - window.toNat + 1)).map
      (fun i => Real.sqrt (((List.range window.toNat).map (fun j =>
        (prices.getD (i + j) 0 - sma.getD i 0) *
          (prices.getD (i + j) 0 - sma.getD i 0))).sum /
        (window.toNat : ℝ))) :=
    Option.some_inj.mp
      (hsd.symm.trans (compute_std_devs_eq prices window sma (by omega) (by omega)))
  refine ⟨_, hbb, ?_⟩
  intro i hi
  change i < prices.length - window.toNat + 1 at hi
  have htop : ((List.range (prices.length - window.toNat + 1)).map
      (fun i => sma.getD i 0 + mult * sd.getD i 0)).getD i 0 =
      sma.getD i 0 + mult * sd.getD i 0 := getD_range_map _ _ _ hi _
  have hbot : ((List.range (prices.length - window.toNat + 1)).map
      (fun i => sma.getD i 0 - mult * sd.getD i 0)).getD i 0 =
      sma.getD i 0 - mult * sd.getD i 0 := getD_range_map _ _ _ hi _
  have hsdi : sd.getD i 0 = Real.sqrt (((List.range window.toNat).map (fun j =>
      (prices.getD (i + j) 0 - sma.getD i 0) *
        (prices.getD (i + j) 0 - sma.getD i 0))).sum / (window.toNat : ℝ)) := by
    rw [hsd2, getD_range_map _ _ _ hi]
  have hnonneg : 0 ≤ mult * sd.getD i 0 :=
    mul_nonneg h3.le (hsdi ▸ Real.sqrt_nonneg _)
  exact ⟨by rw [htop, hsdi], by rw [hbot, hsdi],
    by rw [hbot]; linarith, by rw [htop]; linarith⟩

/-- Witness for C7 at `prices = [1, 2, 4]`, `window = 2`, multiplier `2`. -/
theorem C7_bollinger_band_order_witness :
    (1 : ℤ) ≤ 2 ∧ (2 : ℤ) < (([(1 : ℝ), 2, 4]).length : ℤ) ∧ (0 : ℝ) < 2 ∧
      ∃ bb, compute_bollinger_bands [(1 : ℝ), 2, 4] 2 2 = some bb ∧
        ∀ i < bb.length,
          bb.top_band.getD i 0 = bb.middle_band.getD i 0 +
            2 * Real.sqrt (((List.range (2 : ℤ).toNat).map (fun j =>
              (([(1 : ℝ), 2, 4]).getD (i + j) 0 - bb.middle_band.getD i 0) *
                (([(1 : ℝ), 2, 4]).getD (i + j) 0 - bb.middle_band.getD i 0))).sum /
              ((2 : ℤ).toNat : ℝ)) ∧
          bb.bottom_band.getD i 0 = bb.middle_band.getD i 0 -
            2 * Real.sqrt (((List.range (2 : ℤ).toNat).map (fun j =>
              (([(1 : ℝ), 2, 4]).getD (i + j) 0 - bb.middle_band.getD i 0) *
                (([(1 : ℝ), 2, 4]).getD (i + j) 0 - bb.middle_band.getD i 0))).sum /
              ((2 : ℤ).toNat : ℝ)) ∧
          bb.bottom_band.getD i 0 ≤ bb.middle_band.getD i 0 ∧
          bb.middle_band.getD i 0 ≤ bb.top_band.getD i 0 :=
  ⟨by norm_num, by norm_num, by norm_num,
    C7_bollinger_band_order [(1 : ℝ), 2, 4] 2 2 (by norm_num) (by norm_num)
      (by norm_num)⟩

/-- C10: once the validation of `compute_bollinger_bands` has passed
(`0 < window < length`) and the SMA result is available as the means array,
the internal `compute_std_devs` call always succeeds — its failure branch is
unreachable, so the return status ignored at indicators.c line 397 can never
mask an error. -/
theorem C10_std_devs_call_unreachable_failure (prices means : List ℝ)
    (window : ℤ) (h1 : 0 < window) (h2 : window < (prices.length : ℤ)) :
    (compute_std_devs prices window means).isSome = true := by
  rw [compute_std_devs_eq prices window means h1 (by omega)]
  rfl

/-- Witness for C10 at `prices = [1, 2]`, `means = [3/2]`, `window = 1`. -/
theorem C10_std_devs_call_unreachable_failure_witness :
    (0 : ℤ) < 1 ∧ (1 : ℤ) < (([(1 : ℝ), 2]).length : ℤ) ∧
      (compute_std_devs [(1 : ℝ), 2] 1 [(3 : ℝ) / 2]).isSome = true :=
  ⟨by norm_num, by norm_num,
    C10_std_devs_call_unreachable_failure [(1 : ℝ), 2] [(3 : ℝ) / 2] 1
      (by norm_num) (by norm_num)⟩

/-- C8 (counterexample): at input length `35` the MACD algorithm of the spec
produces two series of length `2`, not `35 - 26 - 9 + 1 = 1` as the
length contract of the claim states. -/
theorem C8_macd_length_counterexample :
    (compute_MACD (List.replicate 35 (0 : ℚ))).map
        (fun r => (r.1.length, r.2.length)) = some (2, 2) ∧
      (2 : ℤ) ≠ 35 - 26 - 9 + 1 := by
  refine ⟨?_, by norm_num⟩
  obtain ⟨m, s, hms, hm, hs⟩ :=
    compute_MACD_some (List.replicate 35 (0 : ℚ)) (by simp)
  rw [hms]
  simp [hm, hs]

/-- C8 (amended): the MACD computation fails whenever
`n - 26 - 9 + 1 <= 0`, and otherwise returns two series that both have
length `n - 33` (that is, `(n - 25) - 9 + 1`, one more than the claimed
`n - 26 - 9 + 1`). -/
theorem C8_macd_lengths (prices : List ℚ) :
    ((prices.length : ℤ) - 26 - 9 + 1 ≤ 0 → compute_MACD prices = none) ∧
    (0 < (prices.length : ℤ) - 26 - 9 + 1 →
      ∃ m s, compute_MACD prices = some (m, s) ∧
        (m.length : ℤ) = (prices.length : ℤ) - 33 ∧
        (s.length : ℤ) = (prices.length : ℤ) - 33) := by
  refine ⟨compute_MACD_none prices, ?_⟩
  intro h
  obtain ⟨m, s, hms, hm, hs⟩ := compute_MACD_some prices (by omega)
  exact ⟨m, s, hms, by omega, by omega⟩

/-- Witness for C8 at a constant series of length `35` (succeeding branch)
and one of length `3` (failing branch). -/
theorem C8_macd_lengths_witness :
    (((List.replicate 3 (0 : ℚ)).length : ℤ) - 26 - 9 + 1 ≤ 0 ∧
      compute_MACD (List.replicate 3 (0 : ℚ)) = none) ∧
    (0 < ((List.replicate 35 (0 : ℚ)).length : ℤ) - 26 - 9 + 1 ∧
      ∃ m s, compute_MACD (List.replicate 35 (0 : ℚ)) = some (m, s) ∧
        (m.length : ℤ) = ((List.replicate 35 (0 : ℚ)).length : ℤ) - 33 ∧
        (s.length : ℤ) = ((List.replicate 35 (0 : ℚ)).length : ℤ) - 33) :=
  ⟨⟨by simp, (C8_macd_lengths (List.replicate 3 (0 : ℚ))).1 (by simp)⟩,
    ⟨by simp, (C8_macd_lengths (List.replicate 35 (0 : ℚ))).2 (by simp)⟩⟩

/-- C9 (counterexample): with equal-length series `prices = [1, 2]`
(non-decreasing) and `volumes = [1, -5]`, the OBV algorithm of the spec yields
`[0, -5]`, which decreases — refuting the unconditional
monotonicity (a negative volume flips the direction). -/
theorem C9_obv_counterexample :
    compute_OBV [(1 : ℚ), 2] [(1 : ℚ), -5] = some [0, -5] ∧
      (1 : ℚ) ≤ 2 ∧ (-5 : ℚ) < 0 := by
  refine ⟨?_, by norm_num, by norm_num⟩
  unfold compute_OBV
  rw [if_neg (by norm_num)]
  have hr : List.range ([(1 : ℚ), 2]).length = [0, 1] := rfl
  rw [hr]
  norm_num [OBV_val, List.getD]

/-- C9 (amended): for equal-length series with `n > 0`, the OBV computation
returns a series of length `n` with `OBV[0] = 0`; and when the price series
is non-decreasing throughout **and every volume is non-negative**, the OBV
output series is monotonically non-decreasing. -/
theorem C9_obv_properties (prices volumes : List ℚ)
    (h : 0 < prices.length) (hlen : prices.length = volumes.length) :
    ∃ r, compute_OBV prices volumes = some r ∧ r.length = prices.length ∧
      r.getD 0 0 = 0 ∧
      ((∀ i, i + 1 < prices.length →
          prices.getD i 0 ≤ prices.getD (i + 1) 0) →
        (∀ v ∈ volumes, 0 ≤ v) →
        ∀ i, i + 1 < r.length → r.getD i 0 ≤ r.getD (i + 1) 0) := by
  refine ⟨(List.range prices.length).map (OBV_val prices volumes), ?_,
    length_range_map _ _, ?_, ?_⟩
  · unfold compute_OBV
    rw [if_neg (by push_neg; exact ⟨by omega, hlen⟩)]
  · rw [getD_range_map _ _ _ h]
    rfl
  · intro hmono hvol i hi
    rw [length_range_map] at hi
    rw [getD_range_map _ _ _ (by omega), getD_range_map _ _ _ hi]
    have hv : 0 ≤ volumes.getD (i + 1) 0 := by
      by_cases hc : i + 1 < volumes.length
      · rw [List.getD_eq_getElem _ _ hc]
        exact hvol _ (List.getElem_mem hc)
      · rw [List.getD_eq_default _ _ (by omega)]
    simp only [OBV_val]
    split_ifs with hgt hlt
    · linarith
    · linarith [hmono i (by omega)]
    · exact le_refl _

/-- Witness for C9 at `prices = [1, 2]`, `volumes = [3, 4]`. -/
theorem C9_obv_properties_witness :
    0 < ([(1 : ℚ), 2]).length ∧
      ([(1 : ℚ), 2]).length = ([(3 : ℚ), 4]).length ∧
      ∃ r, compute_OBV [(1 : ℚ), 2] [(3 : ℚ), 4] = some r ∧
        r.length = ([(1 : ℚ), 2]).length ∧ r.getD 0 0 = 0 ∧
        ((∀ i, i + 1 < ([(1 : ℚ), 2]).length →
            ([(1 : ℚ), 2]).getD i 0 ≤ ([(1 : ℚ), 2]).getD (i + 1) 0) →
          (∀ v ∈ [(3 : ℚ), 4], 0 ≤ v) →
          ∀ i, i + 1 < r.length → r.getD i 0 ≤ r.getD (i + 1) 0) :=
  ⟨by norm_num, rfl, C9_obv_properties [(1 : ℚ), 2] [(3 : ℚ), 4] (by norm_num) rfl⟩

end Indicators
